import Mathlib

/-!
Verification of the flask report-generator service (src/flask-app/app.py)
against its natural-language specification.

Strings are modelled as `List Char` (ASCII-faithful models of the Python
string primitives used by the code).  Filesystem paths are modelled as
lists of path segments, matching `pathlib`'s purely lexical part lists.
External effects (Azure agent calls, matplotlib rendering, Playwright,
pdf2docx) are modelled by explicit parameters or by the data that the code
hands to them.
-/

namespace FlaskReport

/-- ASCII whitespace as recognised by Python's `str.strip` and the regex
class `\s`: space, tab, newline, carriage return, vertical tab, form feed. -/
def pyIsSpace (c : Char) : Bool :=
  c = ' ' || c = '\t' || c = '\n' || c = '\r' || c = Char.ofNat 11 || c = Char.ofNat 12

/-- Python `str.strip()`: drop leading and trailing whitespace. -/
def pyStrip (l : List Char) : List Char :=
  ((l.dropWhile pyIsSpace).reverse.dropWhile pyIsSpace).reverse

/-- Python `str.split(sep)` for a one-character separator: keeps empty
chunks, so `"_a_".split("_") = ["", "a", ""]`. -/
def splitOnChar (sep : Char) : List Char → List (List Char)
  | [] => [[]]
  | c :: cs =>
    match splitOnChar sep cs with
    | [] => [[]]
    | p :: ps => if c = sep then [] :: p :: ps else (c :: p) :: ps

/-- Python `str.isalnum` restricted to ASCII: digits 0-9, letters A-Z, a-z. -/
def pyIsAlnum (c : Char) : Bool :=
  (48 ≤ c.toNat && c.toNat ≤ 57) || (65 ≤ c.toNat && c.toNat ≤ 90) ||
    (97 ≤ c.toNat && c.toNat ≤ 122)

/-- ASCII uppercase letter test. -/
def pyIsUpper (c : Char) : Bool := 65 ≤ c.toNat && c.toNat ≤ 90

/-- Python `str.lower` at ASCII level: shift A-Z down by 32, fix everything else. -/
def pyToLower (c : Char) : Char :=
  if pyIsUpper c then Char.ofNat (c.toNat + 32) else c

/-- The backtick character (kept out of literals). -/
def tick : Char := Char.ofNat 96

/-- The single-quote character. -/
def quot1 : Char := Char.ofNat 39

/-- A triple-backtick Markdown fence delimiter. -/
def tick3 : List Char := [tick, tick, tick]

/-- A triple-single-quote block delimiter. -/
def quot3 : List Char := [quot1, quot1, quot1]

/-- Scan for the first occurrence of `delim`; return the characters before it,
or `none` when `delim` never occurs.  This is the lazy `(.*?)` capture of
`_strip_code_fences`' regex running up to the closing delimiter. -/
def takeUntilDelim (delim : List Char) : List Char → Option (List Char)
  | [] => none
  | c :: cs =>
    if delim.isPrefixOf (c :: cs) then some [] else
      match takeUntilDelim delim cs with
      | some g => some (c :: g)
      | none => none

/-- `re.search` of the pattern `delim(?:[a-zA-Z]+)?\s*(.*?)delim` (DOTALL):
find the first opening delimiter from which a closing delimiter is reachable,
greedily skip an optional language tag and whitespace, and return the first
capture group.  Backtracking never changes the result here because neither
letters nor whitespace can overlap a delimiter character. -/
def searchGroup (delim : List Char) : List Char → Option (List Char)
  | [] => none
  | c :: cs =>
    if delim.isPrefixOf (c :: cs) then
      match takeUntilDelim delim (((c :: cs).drop delim.length).dropWhile
          Char.isAlpha |>.dropWhile pyIsSpace) with
      | some g => some g
      | none => searchGroup delim cs
    else searchGroup delim cs

/-- `re.sub(r'^\s*html\s*', '', text, flags=re.I)`: when the text begins with
optional whitespace followed by a case-insensitive `html`, remove that prefix
together with the whitespace around it; otherwise leave the text unchanged. -/
def removeLeadingHtml (l : List Char) : List Char :=
  if ((l.dropWhile pyIsSpace).take 4).map pyToLower = ['h', 't', 'm', 'l'] then
    ((l.dropWhile pyIsSpace).drop 4).dropWhile pyIsSpace
  else l

/-- Model of `_strip_code_fences` (app.py lines 597-614): extract the first
triple-backtick fenced block if any, then the first triple-quote block if any,
remove a leading `html` language-tag token, and strip surrounding whitespace. -/
def stripCodeFences (l : List Char) : List Char :=
  if l.isEmpty then [] else
    let t1 := match searchGroup tick3 l with
      | some g => g
      | none => l
    let t2 := match searchGroup quot3 t1 with
      | some g => g
      | none => t1
    pyStrip (removeLeadingHtml t2)

/-- The glue used by `"_".join`. -/
def joinUnd : List (List Char) → List Char
  | [] => []
  | [p] => p
  | p :: q :: ps => p ++ '_' :: joinUnd (q :: ps)

/-- First line of `slugify` (app.py line 756):
`safe = "".join(ch if ch.isalnum() else "_" for ch in value.strip())`. -/
def slugifySafe (v : List Char) : List Char :=
  (pyStrip v).map (fun c => if pyIsAlnum c then c else '_')

/-- `filter(None, safe.split("_"))`: the nonempty chunks between
underscores. -/
def slugifyParts (v : List Char) : List (List Char) :=
  (splitOnChar '_' (slugifySafe v)).filter (fun p => !p.isEmpty)

/-- `"_".join(filter(None, safe.split("_"))).lower()`. -/
def slugifyJoined (v : List Char) : List Char :=
  (joinUnd (slugifyParts v)).map pyToLower

/-- Model of `slugify` (app.py lines 755-757): the joined, lowered chunks,
`or "report"` when that string is empty. -/
def slugify (v : List Char) : List Char :=
  if (slugifyJoined v).isEmpty then "report".data else slugifyJoined v

/-- Checks that no two consecutive characters are both underscores. -/
def noDoubleUnd : List Char → Bool
  | [] => true
  | [_] => true
  | a :: b :: t => !(a = '_' && b = '_') && noDoubleUnd (b :: t)

/-- One decimal digit as a character (defaults to `9` above nine). -/
def digChar (d : ℕ) : Char :=
  if d = 0 then '0' else if d = 1 then '1' else if d = 2 then '2'
  else if d = 3 then '3' else if d = 4 then '4' else if d = 5 then '5'
  else if d = 6 then '6' else if d = 7 then '7' else if d = 8 then '8' else '9'

/-- Decimal digit string of a natural number (most significant first). -/
def natDigits (n : ℕ) : List Char := ((Nat.digits 10 n).reverse).map digChar

/-- Zero-padded decimal rendering of width `w`. -/
def padNum (w n : ℕ) : List Char :=
  List.replicate (w - (natDigits n).length) '0' ++ natDigits n

/-- Model of `datetime.now().strftime("%Y%m%d_%H%M%S")`. -/
def formatTimestamp (y mo d h mi s : ℕ) : List Char :=
  padNum 4 y ++ padNum 2 mo ++ padNum 2 d ++ '_' ::
    (padNum 2 h ++ padNum 2 mi ++ padNum 2 s)

/-- Model of the job id built in `orchestrate_report` (app.py line 695):
`f"{slugify(title)}_{datetime.now().strftime('%Y%m%d_%H%M%S')}"`. -/
def jobBaseFilename (title : List Char) (y mo d h mi s : ℕ) : List Char :=
  slugify title ++ '_' :: formatTimestamp y mo d h mi s

namespace ChartFactory

/-- `grouped_bar_n` bar width (app.py line 869): `width = 0.8 / max(n, 1)`
where `n` is the number of series. -/
def grouped_bar_width (n : ℕ) : ℚ := 0.8 / ((max n 1 : ℕ) : ℚ)

/-- `grouped_bar_n` bar placement offset from a label's tick (app.py line 873):
the i-th series' bar sits at `x + (i - (n-1)/2) * width`. -/
def grouped_bar_offset (n i : ℕ) : ℚ :=
  ((i : ℚ) - ((n : ℚ) - 1) / 2) * grouped_bar_width n

/-- Column sum of the stacked data matrix (app.py line 888):
`colsum = data.sum(axis=0)` at column `j`; rows are the series values. -/
def stacked_colsum (rows : List (List ℚ)) (j : ℕ) : ℚ :=
  (rows.map (fun r => r.getD j 0)).sum

/-- The guarded divisor `np.where(colsum==0, 1, colsum)` (app.py line 889). -/
def stacked_divisor (rows : List (List ℚ)) (j : ℕ) : ℚ :=
  if stacked_colsum rows j = 0 then 1 else stacked_colsum rows j

/-- Column `j` of `stacked_bar`'s percent-normalised data
(app.py line 889): `data = np.divide(data, np.where(colsum==0, 1, colsum)) * 100`. -/
def stacked_percent_col (rows : List (List ℚ)) (j : ℕ) : List ℚ :=
  rows.map (fun r => r.getD j 0 / stacked_divisor rows j * 100)

end ChartFactory

/-- A chart produced by one `ChartFactory` call: the data, styling metadata
and output name handed to matplotlib, by chart kind. -/
inductive Chart
  | horizBar (labels : List String) (values : List ℚ)
      (title xlabel name : String)
  | groupedBarN (labels : List String) (series : List (String × List ℚ))
      (title ylabel name : String)
  | line (xlabels : List String) (series : List (String × List ℚ))
      (title ylabel name : String)
  | donut (labels : List String) (shares_pct : List ℚ) (title name : String)
  deriving DecidableEq

/-- One `by_state` row for unit-denominated sectors. -/
structure StateRowUnits where
  state : String
  existing : ℚ
  incoming : ℚ
  planned : ℚ
  deriving DecidableEq

/-- One `by_state` row for space-denominated sectors. -/
structure StateRowSpace where
  state : String
  existing_space_sm : ℚ
  incoming_space_sm : ℚ
  planned_space_sm : ℚ
  deriving DecidableEq

/-- One `by_state` row for the leisure (hotel) sector, room-denominated. -/
structure StateRowRooms where
  state : String
  existing_rooms : ℚ
  incoming_rooms : ℚ
  planned_rooms : ℚ
  deriving DecidableEq

/-- `trends` block for unit-denominated sectors. -/
structure TrendsUnits where
  half_year : List String
  completions : List ℚ
  starts : List ℚ
  new_planned : List ℚ
  deriving DecidableEq

/-- `trends` block for space-denominated sectors. -/
structure TrendsSpace where
  half_year : List String
  completions_space_sm : List ℚ
  starts_space_sm : List ℚ
  new_planned_space_sm : List ℚ
  deriving DecidableEq

/-- `trends` block for the leisure sector. -/
structure TrendsRooms where
  half_year : List String
  completions_rooms : List ℚ
  starts_rooms : List ℚ
  new_planned_rooms : List ℚ
  deriving DecidableEq

/-- `share_pct` sub-object of a residential composition entry. -/
structure SharePct where
  existing : ℚ
  deriving DecidableEq

/-- One entry (`landed` or `stratified`) of `residential.composition`. -/
structure CompositionEntry where
  share_pct : SharePct
  deriving DecidableEq

/-- `residential.composition`. -/
structure ResidentialComposition where
  landed : CompositionEntry
  stratified : CompositionEntry
  deriving DecidableEq

/-- Payload slice for the residential sector. -/
structure ResidentialSection where
  by_state : List StateRowUnits
  trends : TrendsUnits
  composition : ResidentialComposition
  deriving DecidableEq

/-- Payload slice for shop / serviced-apartment / industrial sectors. -/
structure UnitsSection where
  by_state : List StateRowUnits
  trends : TrendsUnits
  deriving DecidableEq

/-- Payload slice for shopping-complex / purpose-built-office sectors. -/
structure SpaceSection where
  by_state : List StateRowSpace
  trends : TrendsSpace
  deriving DecidableEq

/-- Payload slice for the leisure sector. -/
structure RoomsSection where
  by_state : List StateRowRooms
  trends : TrendsRooms
  deriving DecidableEq

/-- Model of `charts_residential` (app.py lines 909-954). -/
def charts_residential (res : ResidentialSection) : List (String × Chart) :=
  let states := res.by_state.map (·.state)
  let existing := res.by_state.map (·.existing)
  let incoming := res.by_state.map (·.incoming)
  let planned := res.by_state.map (·.planned)
  [("existing_by_state", Chart.horizBar states existing
      "Residential Existing Stock by State (H1 2025)" "Units"
      "residential_existing_by_state"),
   ("supply_by_state", Chart.groupedBarN states
      [("Incoming", incoming), ("Planned", planned)]
      "Residential Incoming vs Planned Supply by State (H1 2025)" "Units"
      "residential_supply_by_state"),
   ("composition_existing", Chart.donut ["Landed", "Stratified"]
      [res.composition.landed.share_pct.existing,
       res.composition.stratified.share_pct.existing]
      "Distribution of Landed vs Stratified (Existing)"
      "residential_composition_existing"),
   ("trends", Chart.line res.trends.half_year
      [("Completions", res.trends.completions),
       ("Starts", res.trends.starts),
       ("New Planned", res.trends.new_planned)]
      "Residential Trends (H1 2022 → H1 2025)" "Units"
      "residential_trends")]

/-- Model of `charts_shop` (app.py lines 956-989). -/
def charts_shop (shop : UnitsSection) : List (String × Chart) :=
  let states := shop.by_state.map (·.state)
  let existing := shop.by_state.map (·.existing)
  let incoming := shop.by_state.map (·.incoming)
  let planned := shop.by_state.map (·.planned)
  [("existing_by_state", Chart.horizBar states existing
      "Shop Existing Stock by State (H1 2025)" "Units"
      "shop_existing_by_state"),
   ("supply_by_state", Chart.groupedBarN states
      [("Incoming", incoming), ("Planned", planned)]
      "Shop Incoming vs Planned Supply by State (H1 2025)" "Units"
      "shop_supply_by_state"),
   ("trends", Chart.line shop.trends.half_year
      [("Completions", shop.trends.completions),
       ("Starts", shop.trends.starts),
       ("New Planned", shop.trends.new_planned)]
      "Shop Trends (H1 2022 → H1 2025)" "Units" "shop_trends")]

/-- Model of `charts_serviced_apartment` (app.py lines 991-1024). -/
def charts_serviced_apartment (serv : UnitsSection) : List (String × Chart) :=
  let states := serv.by_state.map (·.state)
  let existing := serv.by_state.map (·.existing)
  let incoming := serv.by_state.map (·.incoming)
  let planned := serv.by_state.map (·.planned)
  [("existing_by_state", Chart.horizBar states existing
      "Serviced Apartment Existing Stock by State (H1 2025)" "Units"
      "servap_existing_by_state"),
   ("supply_by_state", Chart.groupedBarN states
      [("Incoming", incoming), ("Planned", planned)]
      "Serviced Apartment Incoming vs Planned Supply by State (H1 2025)"
      "Units" "servap_supply_by_state"),
   ("trends", Chart.line serv.trends.half_year
      [("Completions", serv.trends.completions),
       ("Starts", serv.trends.starts),
       ("New Planned", serv.trends.new_planned)]
      "Serviced Apartment Trends (H1 2022 → H1 2025)" "Units"
      "servap_trends")]

/-- Model of `charts_shopping_complex` (app.py lines 1026-1059). -/
def charts_shopping_complex (sc : SpaceSection) : List (String × Chart) :=
  let states := sc.by_state.map (·.state)
  let existing := sc.by_state.map (·.existing_space_sm)
  let incoming := sc.by_state.map (·.incoming_space_sm)
  let planned := sc.by_state.map (·.planned_space_sm)
  [("existing_space_by_state", Chart.horizBar states existing
      "Shopping Complex Existing Space by State (H1 2025)"
      "Total Space (s.m.)" "shopcx_existing_space_by_state"),
   ("supply_space_by_state", Chart.groupedBarN states
      [("Incoming", incoming), ("Planned", planned)]
      "Shopping Complex Incoming vs Planned Space by State (H1 2025)"
      "Total Space (s.m.)" "shopcx_supply_space_by_state"),
   ("trends", Chart.line sc.trends.half_year
      [("Completions", sc.trends.completions_space_sm),
       ("Starts", sc.trends.starts_space_sm),
       ("New Planned", sc.trends.new_planned_space_sm)]
      "Shopping Complex Trends (H1 2022 → H1 2025)" "Total Space (s.m.)"
      "shopcx_trends")]

/-- Model of `charts_purpose_built_office` (app.py lines 1061-1094). -/
def charts_purpose_built_office (pbo : SpaceSection) : List (String × Chart) :=
  let states := pbo.by_state.map (·.state)
  let existing := pbo.by_state.map (·.existing_space_sm)
  let incoming := pbo.by_state.map (·.incoming_space_sm)
  let planned := pbo.by_state.map (·.planned_space_sm)
  [("existing_space_by_state", Chart.horizBar states existing
      "Purpose-Built Office Existing Space by State (H1 2025)"
      "Total Space (s.m.)" "pbo_existing_space_by_state"),
   ("supply_space_by_state", Chart.groupedBarN states
      [("Incoming", incoming), ("Planned", planned)]
      "Purpose-Built Office Incoming vs Planned Space by State (H1 2025)"
      "Total Space (s.m.)" "pbo_supply_space_by_state"),
   ("trends", Chart.line pbo.trends.half_year
      [("Completions", pbo.trends.completions_space_sm),
       ("Starts", pbo.trends.starts_space_sm),
       ("New Planned", pbo.trends.new_planned_space_sm)]
      "Purpose-Built Office Trends (H1 2022 → H1 2025)"
      "Total Space (s.m.)" "pbo_trends")]

/-- Model of `charts_industrial` (app.py lines 1096-1129). -/
def charts_industrial (ind : UnitsSection) : List (String × Chart) :=
  let states := ind.by_state.map (·.state)
  let existing := ind.by_state.map (·.existing)
  let incoming := ind.by_state.map (·.incoming)
  let planned := ind.by_state.map (·.planned)
  [("existing_by_state", Chart.horizBar states existing
      "Industrial Existing Stock by State (H1 2025)" "Units"
      "industrial_existing_by_state"),
   ("supply_by_state", Chart.groupedBarN states
      [("Incoming", incoming), ("Planned", planned)]
      "Industrial Incoming vs Planned Supply by State (H1 2025)" "Units"
      "industrial_supply_by_state"),
   ("trends", Chart.line ind.trends.half_year
      [("Completions", ind.trends.completions),
       ("Starts", ind.trends.starts),
       ("New Planned", ind.trends.new_planned)]
      "Industrial Trends (H1 2022 → H1 2025)" "Units" "industrial_trends")]

/-- Model of `charts_leisure` (app.py lines 1132-1165). -/
def charts_leisure (leisure : RoomsSection) : List (String × Chart) :=
  let states := leisure.by_state.map (·.state)
  let rooms_ex := leisure.by_state.map (·.existing_rooms)
  let rooms_in := leisure.by_state.map (·.incoming_rooms)
  let rooms_pl := leisure.by_state.map (·.planned_rooms)
  [("existing_rooms_by_state", Chart.horizBar states rooms_ex
      "Hotel Existing Rooms by State (H1 2025)" "No. of Room"
      "leisure_existing_rooms_by_state"),
   ("supply_rooms_by_state", Chart.groupedBarN states
      [("Incoming", rooms_in), ("Planned", rooms_pl)]
      "Hotel Incoming vs Planned Rooms by State (H1 2025)" "No. of Room"
      "leisure_supply_rooms_by_state"),
   ("trends", Chart.line leisure.trends.half_year
      [("Completions", leisure.trends.completions_rooms),
       ("Starts", leisure.trends.starts_rooms),
       ("New Planned", leisure.trends.new_planned_rooms)]
      "Hotel Trends (H1 2022 → H1 2025)" "No. of Room" "leisure_trends")]

/-- The payload's `sections` dict: at most one slice per recognised sector,
plus any number of unrecognised keys, which `generate_all_charts` never
consults. -/
structure Sections where
  residential : Option ResidentialSection
  shop : Option UnitsSection
  serviced_apartment : Option UnitsSection
  shopping_complex : Option SpaceSection
  purpose_built_office : Option SpaceSection
  industrial : Option UnitsSection
  leisure : Option RoomsSection
  extra_keys : List String

/-- The seven sector names `generate_all_charts` recognises, in its
source order. -/
def sectorNames : List String :=
  ["residential", "shop", "serviced_apartment", "shopping_complex",
   "purpose_built_office", "industrial", "leisure"]

/-- Whether a recognised sector name is present in the payload sections. -/
def sectionPresent (sec : Sections) : String → Bool
  | "residential" => sec.residential.isSome
  | "shop" => sec.shop.isSome
  | "serviced_apartment" => sec.serviced_apartment.isSome
  | "shopping_complex" => sec.shopping_complex.isSome
  | "purpose_built_office" => sec.purpose_built_office.isSome
  | "industrial" => sec.industrial.isSome
  | "leisure" => sec.leisure.isSome
  | _ => false

/-- One conditional entry of the chart mapping: present exactly when the
sector key is in the sections dict. -/
def optEntry {α β : Type} (name : String) (o : Option α) (f : α → β) :
    List (String × β) :=
  match o with
  | some a => [(name, f a)]
  | none => []

/-- Model of `generate_all_charts` (app.py lines 1168-1193): one `if key in
sec` block per recognised sector, in source order. -/
def generate_all_charts (sec : Sections) :
    List (String × List (String × Chart)) :=
  optEntry "residential" sec.residential charts_residential ++
  optEntry "shop" sec.shop charts_shop ++
  optEntry "serviced_apartment" sec.serviced_apartment
    charts_serviced_apartment ++
  optEntry "shopping_complex" sec.shopping_complex charts_shopping_complex ++
  optEntry "purpose_built_office" sec.purpose_built_office
    charts_purpose_built_office ++
  optEntry "industrial" sec.industrial charts_industrial ++
  optEntry "leisure" sec.leisure charts_leisure

/-! ### pathlib model for the download route -/

/-- A filesystem path as `pathlib` keeps it: the list of parts.  `pathlib`
stores `..` as an ordinary part and only drops empty and `.` segments. -/
abbrev FsPath := List (List Char)

/-- Splitting a string on `/` the way the `PurePath` division operator does:
empty and `.` segments are dropped, `..` segments are kept. -/
def pathParts (s : List Char) : FsPath :=
  (splitOnChar '/' s).filter (fun seg => ¬ seg.isEmpty && seg ≠ ['.'])

/-- `Path.resolve()` on an absolute path's parts: collapse each `..` against
the preceding part (at the root it is dropped). -/
def pathResolve (p : FsPath) : FsPath :=
  p.foldl (fun acc seg => if seg = ['.', '.'] then acc.dropLast
    else acc ++ [seg]) []

/-- The process `OUTPUT_DIR` (app.py line 41), as an absolute path's part
list; the concrete directory name is irrelevant to the claims. -/
def OUTPUT_DIR_parts : FsPath := ["srv".data, "app".data, "outputs".data]

/-- Result of the `download` route. -/
inductive DownloadResult
  | notFound
  | forbidden
  | served (p : FsPath)
  deriving DecidableEq

/-- `Path.exists()` against a filesystem modelled as the list of resolved
paths that exist: the OS resolves `..` segments before looking up. -/
def fsExists (fs : List FsPath) (p : FsPath) : Bool :=
  pathResolve p ∈ fs

/-- Model of the `download` route (app.py lines 1274-1287):
`job_dir = OUTPUT_DIR / job_id`, `file_path = job_dir / filename`; 404 when
either does not exist; then `file_path.relative_to(OUTPUT_DIR)` — a lexical
prefix check on the unresolved parts — aborts 403 on `ValueError`, otherwise
the file is served. -/
def download (fs : List FsPath) (jobId filename : List Char) : DownloadResult :=
  let jobDir := OUTPUT_DIR_parts ++ pathParts jobId
  let filePath := jobDir ++ pathParts filename
  if ¬ fsExists fs jobDir || ¬ fsExists fs filePath then .notFound
  else if OUTPUT_DIR_parts.isPrefixOf filePath then .served filePath
  else .forbidden

/-! ### Text file round trip and the request layer -/

/-- `os.linesep` on the Linux deployment target. -/
def osLinesep : List Char := ['\n']

/-- Text-mode write with `newline=None` (`Path.write_text`): every `\n` is
translated to `os.linesep`; other characters pass through. -/
def pyWriteText (s : List Char) : List Char :=
  s.flatMap (fun c => if c = '\n' then osLinesep else [c])

/-- Text-mode read with universal newlines (`Path.read_text`): `\r\n` and
lone `\r` both decode to `\n`. -/
def pyReadText : List Char → List Char
  | [] => []
  | [c] => if c = '\r' then ['\n'] else [c]
  | c :: d :: t =>
    if c = '\r' then
      if d = '\n' then '\n' :: pyReadText t else '\n' :: pyReadText (d :: t)
    else c :: pyReadText (d :: t)

/-- A path in the request-layer model: directory segments as strings. -/
abbrev SPath := List String

/-- The three artifact paths produced by `save_outputs`
(app.py lines 729-731). -/
structure SaveArtifacts where
  html_path : SPath
  pdf_path : SPath
  docx_path : SPath
  deriving DecidableEq

/-- Model of `save_outputs` (app.py lines 726-753).  The HTML text is written
first (`html_path.write_text(html_str, encoding="utf-8")`); the Playwright
PDF render and the pdf2docx conversion are external steps whose outcomes are
the `render` and `docx` parameters.  Returns the files written so far (path
with content; PDF/DOCX contents are not modelled) and either the three
artifact paths or the first failure. -/
def save_outputs (htmlStr : List Char) (base : String) (outDir : SPath)
    (render docx : Except String Unit) :
    List (SPath × List Char) × Except String SaveArtifacts :=
  let htmlPath := outDir ++ [base ++ ".html"]
  let pdfPath := outDir ++ [base ++ ".pdf"]
  let docxPath := outDir ++ [base ++ ".docx"]
  let w0 := [(htmlPath, pyWriteText htmlStr)]
  match render with
  | .error e => (w0, .error e)
  | .ok _ =>
    let w1 := w0 ++ [(pdfPath, [])]
    match docx with
    | .error e => (w1, .error e)
    | .ok _ => (w1 ++ [(docxPath, [])],
        .ok ⟨htmlPath, pdfPath, docxPath⟩)

/-- The JSON body of a `POST /api/report` request. -/
structure Payload where
  title : String
  period : String
  sections : Sections

/-- What `orchestrate_report` hands back on success (app.py lines 718-724),
restricted to the fields `api_report` consumes. -/
structure OrcResult where
  id : String
  html : String

/-- The process `OUTPUT_DIR` in the request-layer model. -/
def OUTPUT_DIR_s : SPath := ["srv", "app", "outputs"]

/-- Last path segment (`Path.name`), used as the zip entry arcname. -/
def pathName (p : SPath) : String := p.getLastD ""

/-- Response of `api_report` as far as the claims are concerned: HTTP status,
the zip entry names when a zip was streamed, whether the converter
(`save_outputs`) was invoked, and the files it wrote. -/
structure HttpResponse where
  status : ℕ
  zip_entries : List String
  converter_called : Bool
  writes : List (SPath × List Char)
  deriving DecidableEq

/-- Model of `api_report` (app.py lines 1208-1272).  `body` is the parsed
JSON body (`none` for a malformed one); `orch` abstracts
`orchestrate_report`, whose failures are caught and mapped to 503; `render`
and `docx` are the conversion outcomes inside `save_outputs`, whose failures
are caught and mapped to 500; `fmt` is the `format` query parameter. -/
def api_report (body : Option Payload) (orch : Payload → Except String OrcResult)
    (render docx : Except String Unit) (fmt : String) : HttpResponse :=
  match body with
  | none => ⟨400, [], false, []⟩
  | some p =>
    match orch p with
    | .error _ => ⟨503, [], false, []⟩
    | .ok o =>
      let base := o.id
      let jobDir := OUTPUT_DIR_s ++ [base]
      let res := save_outputs o.html.data base jobDir render docx
      match res.2 with
      | .error _ => ⟨500, [], true, res.1⟩
      | .ok arts =>
        if fmt = "links" then ⟨200, [], true, res.1⟩
        else if fmt = "pdf" || fmt = "docx" || fmt = "html" then
          ⟨200, [], true, res.1⟩
        else if fmt = "zip" then
          ⟨200, [pathName arts.html_path, pathName arts.pdf_path,
            pathName arts.docx_path], true, res.1⟩
        else ⟨400, [], true, res.1⟩

/-! ### Concrete fixtures used by counterexamples and witnesses -/

/-- A filesystem holding one job directory and the system password file. -/
def fsEx : List FsPath :=
  [OUTPUT_DIR_parts ++ ["job1".data], ["etc".data, "passwd".data]]

/-- The unresolved parts of `OUTPUT_DIR / "job1" / "../../../../etc/passwd"`. -/
def traversalPath : FsPath :=
  OUTPUT_DIR_parts ++
    ["job1".data, "..".data, "..".data, "..".data, "..".data,
     "etc".data, "passwd".data]

/-- A one-state residential payload slice (the end-to-end scenario data). -/
def resSectionEx : ResidentialSection :=
  ⟨[⟨"Selangor", 1200, 80, 40⟩],
   ⟨["H1 2024", "H1 2025"], [10, 12], [5, 6], [3, 4]⟩,
   ⟨⟨⟨60⟩⟩, ⟨⟨40⟩⟩⟩⟩

/-- A payload sections dict with no recognised sector present. -/
def sectionsEmpty : Sections := ⟨none, none, none, none, none, none, none, []⟩

/-- A concrete report payload. -/
def payloadEx : Payload := ⟨"Q1 Stock", "Jan-Mar 2025", sectionsEmpty⟩

end FlaskReport

namespace FlaskReport

theorem char_toNat_ofNat_of_lt (n : Nat) (h : n < 55296) : (Char.ofNat n).toNat = n := by
  unfold Char.ofNat
  rw [dif_pos (Or.inl h)]
  simp [Char.ofNatAux, Char.toNat, UInt32.toNat, BitVec.toNat_ofNatLt]

theorem pyToLower_alnum {c : Char} (h : pyIsAlnum c = true) :
    pyIsAlnum (pyToLower c) = true ∧ pyIsUpper (pyToLower c) = false := by
  unfold pyToLower
  by_cases hu : pyIsUpper c = true
  · simp only [pyIsUpper, Bool.and_eq_true, decide_eq_true_eq] at hu
    rw [if_pos (by simp only [pyIsUpper, Bool.and_eq_true, decide_eq_true_eq]; omega)]
    have hv : (Char.ofNat (c.toNat + 32)).toNat = c.toNat + 32 :=
      char_toNat_ofNat_of_lt _ (by omega)
    constructor
    · simp only [pyIsAlnum, hv, Bool.or_eq_true, Bool.and_eq_true, decide_eq_true_eq]
      omega
    · rw [Bool.eq_false_iff]
      intro hcon
      simp only [pyIsUpper, hv, Bool.and_eq_true, decide_eq_true_eq] at hcon
      omega
  · rw [if_neg hu]
    exact ⟨h, Bool.eq_false_iff.mpr hu⟩

theorem pyWriteText_eq (s : List Char) : pyWriteText s = s := by
  induction s with
  | nil => rfl
  | cons c t ih =>
    simp only [pyWriteText, List.flatMap_cons] at *
    by_cases hc : c = '\n'
    · rw [if_pos hc, ih, hc]
      rfl
    · rw [if_neg hc, ih]
      rfl

theorem pyReadText_of_no_cr :
    ∀ s : List Char, (∀ c ∈ s, c ≠ '\r') → pyReadText s = s := by
  intro s
  induction s with
  | nil => intro _; rfl
  | cons c t ih =>
    intro h
    have hc : c ≠ '\r' := h c (by simp)
    have ht : ∀ x ∈ t, x ≠ '\r' := fun x hx => h x (by simp [hx])
    match t with
    | [] => simp [pyReadText, hc]
    | d :: t2 =>
      simp only [pyReadText, if_neg hc]
      rw [ih ht]

theorem sum_map_div_mul (l : List (List ℚ)) (j : ℕ) (d c : ℚ) :
    (l.map (fun r => r.getD j 0 / d * c)).sum
      = (l.map (fun r => r.getD j 0)).sum / d * c := by
  induction l with
  | nil => simp
  | cons r t ih =>
    simp only [List.map_cons, List.sum_cons, ih]
    ring

theorem list_sum_eq_zero_all {l : List ℚ} (h0 : ∀ x ∈ l, 0 ≤ x)
    (hs : l.sum = 0) : ∀ x ∈ l, x = 0 := by
  induction l with
  | nil => simp
  | cons a t ih =>
    have ha : 0 ≤ a := h0 a (by simp)
    have ht : ∀ x ∈ t, 0 ≤ x := fun x hx => h0 x (by simp [hx])
    have hts : 0 ≤ t.sum := List.sum_nonneg ht
    simp only [List.sum_cons] at hs
    have ha0 : a = 0 := by linarith
    have hts0 : t.sum = 0 := by linarith
    intro x hx
    rcases List.mem_cons.mp hx with h | h
    · rw [h, ha0]
    · exact ih ht hts0 x h

theorem pyToLower_underscore_iff {c : Char} : pyToLower c = '_' ↔ c = '_' := by
  constructor
  · intro h
    unfold pyToLower at h
    by_cases hu : pyIsUpper c = true
    · rw [if_pos hu] at h
      exfalso
      simp only [pyIsUpper, Bool.and_eq_true, decide_eq_true_eq] at hu
      have hv : (Char.ofNat (c.toNat + 32)).toNat = c.toNat + 32 :=
        char_toNat_ofNat_of_lt _ (by omega)
      have h95 : ('_' : Char).toNat = 95 := rfl
      have : ('_' : Char).toNat = c.toNat + 32 := by rw [← h, hv]
      omega
    · rwa [if_neg hu] at h
  · intro h
    subst h
    decide

end FlaskReport

namespace FlaskReport

/-! ### Claim theorems -/

/-- Claim C1 (code bug): the spec requires a download whose resolved path
lies outside the job's output directory to be rejected with 403, and the
code's own comment claims to "ensure file_path is inside OUTPUT_DIR"; but
`Path.relative_to` is a purely lexical prefix check that keeps `..` parts
unresolved, so for a traversal filename whose target exists the route serves
the file: here the resolved target is `/etc/passwd`, outside `OUTPUT_DIR`,
yet `download` answers `served`, not `forbidden`. -/
theorem download_traversal_served :
    download fsEx "job1".data "../../../../etc/passwd".data
        = DownloadResult.served traversalPath ∧
    pathResolve traversalPath = ["etc".data, "passwd".data] ∧
    OUTPUT_DIR_parts.isPrefixOf (pathResolve traversalPath) = false := by
  refine ⟨by decide, by decide, by decide⟩

/-- Claim C2 (counterexample): the residential chart builder does not return
exactly three charts — on a well-formed residential slice it returns four. -/
theorem charts_residential_not_three :
    (charts_residential resSectionEx).length ≠ 3 := by decide

/-- Claim C2 (amended): every sector chart builder except the residential one
returns exactly three charts (ranked horizontal bar, incoming-vs-planned
grouped comparison, multi-series trend line, in that key order); the
residential builder returns four, adding a donut composition chart. -/
theorem section_builders_chart_counts :
    ∀ (r : ResidentialSection) (s sa ind : UnitsSection)
      (sc pbo : SpaceSection) (le : RoomsSection),
      (charts_shop s).length = 3 ∧
      (charts_serviced_apartment sa).length = 3 ∧
      (charts_shopping_complex sc).length = 3 ∧
      (charts_purpose_built_office pbo).length = 3 ∧
      (charts_industrial ind).length = 3 ∧
      (charts_leisure le).length = 3 ∧
      (charts_residential r).length = 4 ∧
      (charts_shop s).map Prod.fst
          = ["existing_by_state", "supply_by_state", "trends"] ∧
      (charts_residential r).map Prod.fst
          = ["existing_by_state", "supply_by_state", "composition_existing",
             "trends"] := by
  intro r s sa ind sc pbo le
  exact ⟨rfl, rfl, rfl, rfl, rfl, rfl, rfl, rfl, rfl⟩

/-- Claim C3 (counterexample): the write-then-read round trip through
`save_outputs`' text files is not the identity on every string — a string
containing a carriage return comes back changed, because text-mode reading
decodes `\r\n` to `\n` (universal newlines). -/
theorem html_roundtrip_cr_counterexample :
    pyReadText (pyWriteText ("<p>a</p>\r\n<p>b</p>".data))
        ≠ "<p>a</p>\r\n<p>b</p>".data := by decide

/-- Claim C3 (amended): `save_outputs` writes the assembled HTML text first,
verbatim, to `outDir/{base}.html` (on the Linux deployment target the
text-mode newline translation is the identity), and re-reading that file
yields the identical string provided the HTML contains no carriage-return
characters; a CR-bearing string is normalised on re-read. -/
theorem save_outputs_html_roundtrip :
    ∀ (htmlStr : List Char) (base : String) (outDir : SPath)
      (render docx : Except String Unit),
      (save_outputs htmlStr base outDir render docx).1.head?
          = some (outDir ++ [base ++ ".html"], pyWriteText htmlStr) ∧
      pyWriteText htmlStr = htmlStr ∧
      ((∀ c ∈ htmlStr, c ≠ '\r') →
        pyReadText (pyWriteText htmlStr) = htmlStr) := by
  intro htmlStr base outDir render docx
  refine ⟨?_, pyWriteText_eq htmlStr, ?_⟩
  · cases render with
    | error e => rfl
    | ok u => cases docx with
      | error e => rfl
      | ok u => rfl
  · intro h
    rw [pyWriteText_eq]
    exact pyReadText_of_no_cr htmlStr h

/-- Witness for C3's amended theorem at a concrete CR-free HTML string. -/
theorem save_outputs_html_roundtrip_witness :
    (∀ c ∈ ("<p>ok</p>".data), c ≠ '\r') ∧
    pyReadText (pyWriteText ("<p>ok</p>".data)) = "<p>ok</p>".data :=
  ⟨by decide,
    (save_outputs_html_roundtrip "<p>ok</p>".data "b" [] (.ok ()) (.ok ())).2.2
      (by decide)⟩

/-- Claim C5 (counterexample): with a negative value in a series, a column
whose values sum to zero does not stay all-zero — the guarded divisor 1
keeps the raw values, scaled by 100. -/
theorem stacked_bar_zero_col_counterexample :
    ChartFactory.stacked_colsum [[(5 : ℚ)], [-5]] 0 = 0 ∧
    ChartFactory.stacked_percent_col [[(5 : ℚ)], [-5]] 0 = [500, -500] ∧
    ¬ (∀ v ∈ ChartFactory.stacked_percent_col [[(5 : ℚ)], [-5]] 0, v = 0) := by
  have hcol : ChartFactory.stacked_percent_col [[(5 : ℚ)], [-5]] 0
      = [500, -500] := by
    norm_num [ChartFactory.stacked_percent_col, ChartFactory.stacked_divisor,
      ChartFactory.stacked_colsum]
  refine ⟨by norm_num [ChartFactory.stacked_colsum], hcol, fun hall => ?_⟩
  have h := hall 500 (by rw [hcol]; exact List.mem_cons_self _ _)
  norm_num at h

/-- Claim C5 (amended): `stacked_bar`'s percent normalisation is guarded for
every input (the divisor is never zero); every column with a nonzero sum is
normalised to total exactly 100; and for nonnegative series values a column
summing to zero stays all-zero. -/
theorem stacked_bar_percent_spec :
    ∀ (rows : List (List ℚ)) (j : ℕ),
      ChartFactory.stacked_divisor rows j ≠ 0 ∧
      (ChartFactory.stacked_colsum rows j ≠ 0 →
        (ChartFactory.stacked_percent_col rows j).sum = 100) ∧
      ((∀ r ∈ rows, 0 ≤ r.getD j 0) →
        ChartFactory.stacked_colsum rows j = 0 →
        ∀ v ∈ ChartFactory.stacked_percent_col rows j, v = 0) := by
  intro rows j
  refine ⟨?_, ?_, ?_⟩
  · by_cases h : ChartFactory.stacked_colsum rows j = 0 <;>
      simp [ChartFactory.stacked_divisor, h]
  · intro h
    unfold ChartFactory.stacked_percent_col
    rw [sum_map_div_mul]
    have hd : ChartFactory.stacked_divisor rows j
        = ChartFactory.stacked_colsum rows j := by
      simp [ChartFactory.stacked_divisor, h]
    rw [hd]
    have hs : (rows.map (fun r => r.getD j 0)).sum
        = ChartFactory.stacked_colsum rows j := rfl
    rw [hs, div_self h, one_mul]
  · intro hpos h0 v hv
    unfold ChartFactory.stacked_percent_col at hv
    obtain ⟨r, hr, hveq⟩ := List.mem_map.mp hv
    have hall : ∀ x ∈ rows.map (fun r => r.getD j 0), 0 ≤ x := by
      intro x hx
      obtain ⟨r2, hr2, hx2⟩ := List.mem_map.mp hx
      rw [← hx2]
      exact hpos r2 hr2
    have hmem : r.getD j 0 ∈ rows.map (fun r => r.getD j 0) :=
      List.mem_map.mpr ⟨r, hr, rfl⟩
    have hz := list_sum_eq_zero_all hall h0 _ hmem
    rw [← hveq, hz]
    simp

/-- Witness for C5's amended theorem: a 60/40 column normalises to 100. -/
theorem stacked_bar_percent_spec_witness :
    ChartFactory.stacked_colsum [[(60 : ℚ)], [40]] 0 ≠ 0 ∧
    (ChartFactory.stacked_percent_col [[(60 : ℚ)], [40]] 0).sum = 100 :=
  ⟨by norm_num [ChartFactory.stacked_colsum],
    (stacked_bar_percent_spec [[(60 : ℚ)], [40]] 0).2.1
      (by norm_num [ChartFactory.stacked_colsum])⟩

/-- Claim C6 (confirmed): for a nonempty series map of N series,
`grouped_bar_n` uses bar width 0.8/N, places the i-th series' bar at offset
(i - (N-1)/2) * (0.8/N) from the label tick, makes consecutive offsets
differ by exactly one bar width (even spacing), and the N offsets sum to
zero (the cluster is centred on the tick). -/
theorem grouped_bar_n_layout :
    ∀ n : ℕ, 1 ≤ n →
      ChartFactory.grouped_bar_width n = 0.8 / (n : ℚ) ∧
      (∀ i : ℕ, ChartFactory.grouped_bar_offset n i
          = ((i : ℚ) - ((n : ℚ) - 1) / 2) * (0.8 / (n : ℚ))) ∧
      (∀ i : ℕ, ChartFactory.grouped_bar_offset n (i + 1)
          - ChartFactory.grouped_bar_offset n i
          = ChartFactory.grouped_bar_width n) ∧
      (∑ i in Finset.range n, ChartFactory.grouped_bar_offset n i) = 0 := by
  intro n hn
  have hmax : max n 1 = n := max_eq_left hn
  have hw : ChartFactory.grouped_bar_width n = 0.8 / (n : ℚ) := by
    unfold ChartFactory.grouped_bar_width
    rw [hmax]
  refine ⟨hw, ?_, ?_, ?_⟩
  · intro i
    unfold ChartFactory.grouped_bar_offset
    rw [hw]
  · intro i
    unfold ChartFactory.grouped_bar_offset
    push_cast
    ring
  · have h := Finset.sum_range_id_mul_two n
    have h2 := congrArg (fun k : ℕ => (k : ℚ)) h
    push_cast [Nat.cast_sub hn] at h2
    unfold ChartFactory.grouped_bar_offset
    rw [← Finset.sum_mul]
    have hc : ∑ i in Finset.range n, ((i : ℚ) - ((n : ℚ) - 1) / 2) = 0 := by
      rw [Finset.sum_sub_distrib, Finset.sum_const, Finset.card_range,
        nsmul_eq_mul]
      linarith
    rw [hc, zero_mul]

/-- Witness for C6 at two series: the offsets sum to zero and the width is
0.8/2. -/
theorem grouped_bar_n_layout_witness :
    1 ≤ 2 ∧ ChartFactory.grouped_bar_width 2 = 0.8 / (2 : ℚ) ∧
    (∑ i in Finset.range 2, ChartFactory.grouped_bar_offset 2 i) = 0 :=
  ⟨by decide, (grouped_bar_n_layout 2 (by decide)).1,
    (grouped_bar_n_layout 2 (by decide)).2.2.2⟩

/-- Claim C7 (confirmed): the chart mapping's keys are exactly the recognised
sector names present in the payload's sections, in source order; absent
sectors are silently omitted, and unrecognised section keys never change the
result. -/
theorem generate_all_charts_keys :
    ∀ (sec : Sections) (extra : List String),
      (generate_all_charts sec).map Prod.fst
          = sectorNames.filter (fun s => sectionPresent sec s) ∧
      generate_all_charts
          ⟨sec.residential, sec.shop, sec.serviced_apartment,
           sec.shopping_complex, sec.purpose_built_office, sec.industrial,
           sec.leisure, extra⟩
        = generate_all_charts sec := by
  intro sec extra
  obtain ⟨r, s, sa, sc, pbo, ind, le, ex⟩ := sec
  constructor
  · cases r <;> cases s <;> cases sa <;> cases sc <;> cases pbo <;>
      cases ind <;> cases le <;> rfl
  · rfl

/-- Claim C8 (confirmed): with a valid JSON body, a failure raised by
orchestration (agent calls or chart generation) yields HTTP 503 and the
converter is never invoked, so it writes nothing; when orchestration
succeeds and the conversion/saving step fails, the response is HTTP 500. -/
theorem api_report_error_codes :
    ∀ (p : Payload) (orch : Payload → Except String OrcResult)
      (render docx : Except String Unit) (fmt : String),
      (∀ e, orch p = .error e →
        api_report (some p) orch render docx fmt = ⟨503, [], false, []⟩) ∧
      (∀ o e, orch p = .ok o →
        (save_outputs o.html.data o.id (OUTPUT_DIR_s ++ [o.id])
            render docx).2 = .error e →
        (api_report (some p) orch render docx fmt).status = 500) := by
  intro p orch render docx fmt
  constructor
  · intro e he
    simp [api_report, he]
  · intro o e ho hsave
    simp [api_report, ho, hsave]

/-- Witness for C8: a concrete failing orchestrator produces the 503
response with no converter call and no writes. -/
theorem api_report_error_codes_witness :
    ((fun _ : Payload => (.error "agents not ready" : Except String OrcResult))
        payloadEx = .error "agents not ready") ∧
    api_report (some payloadEx) (fun _ => .error "agents not ready")
        (.ok ()) (.ok ()) "links" = ⟨503, [], false, []⟩ :=
  ⟨rfl, (api_report_error_codes payloadEx
      (fun _ => .error "agents not ready") (.ok ()) (.ok ()) "links").1
      "agents not ready" rfl⟩

/-- Claim C9 (confirmed): for a successful job, `format=zip` streams an
archive with exactly three entries, named from the job id:
`{job-id}.html`, `{job-id}.pdf`, `{job-id}.docx`. -/
theorem api_report_zip_entries :
    ∀ (p : Payload) (orch : Payload → Except String OrcResult) (o : OrcResult),
      orch p = .ok o →
      (api_report (some p) orch (.ok ()) (.ok ()) "zip").zip_entries
          = [o.id ++ ".html", o.id ++ ".pdf", o.id ++ ".docx"] ∧
      (api_report (some p) orch (.ok ()) (.ok ()) "zip").zip_entries.length
          = 3 := by
  intro p orch o ho
  have h : (api_report (some p) orch (.ok ()) (.ok ()) "zip").zip_entries
      = [o.id ++ ".html", o.id ++ ".pdf", o.id ++ ".docx"] := by
    simp [api_report, ho, save_outputs, pathName]
  exact ⟨h, by rw [h]; rfl⟩

/-- Witness for C9 at a concrete successful job. -/
theorem api_report_zip_entries_witness :
    ((fun _ : Payload =>
        (.ok ⟨"q1_stock_20250101_000000", "x"⟩ : Except String OrcResult))
        payloadEx = .ok ⟨"q1_stock_20250101_000000", "x"⟩) ∧
    (api_report (some payloadEx)
        (fun _ => .ok ⟨"q1_stock_20250101_000000", "x"⟩)
        (.ok ()) (.ok ()) "zip").zip_entries
      = ["q1_stock_20250101_000000.html", "q1_stock_20250101_000000.pdf",
         "q1_stock_20250101_000000.docx"] := by
  refine ⟨rfl, ?_⟩
  rw [(api_report_zip_entries payloadEx
      (fun _ => .ok ⟨"q1_stock_20250101_000000", "x"⟩)
      ⟨"q1_stock_20250101_000000", "x"⟩ rfl).1]
  rfl

end FlaskReport

namespace FlaskReport

/-! ### Fence-stripping lemmas (claim C4) -/

theorem dropWhile_cons_true {p : Char → Bool} {a : Char} (l : List Char)
    (h : p a = true) : (a :: l).dropWhile p = l.dropWhile p := by
  simp [List.dropWhile, h]

theorem dropWhile_cons_false {p : Char → Bool} {a : Char} (l : List Char)
    (h : p a = false) : (a :: l).dropWhile p = a :: l := by
  simp [List.dropWhile, h]

theorem dropWhile_space_append_tick3 (doc : List Char) :
    (doc ++ tick3).dropWhile pyIsSpace = doc.dropWhile pyIsSpace ++ tick3 := by
  rw [List.dropWhile_append]
  split
  · next h =>
    rw [List.isEmpty_iff.mp h]
    decide
  · rfl

theorem takeUntil_append_tick3 (xs : List Char) (h : ∀ c ∈ xs, c ≠ tick) :
    takeUntilDelim tick3 (xs ++ tick3) = some xs := by
  induction xs with
  | nil => decide
  | cons c cs ih =>
    have hc : c ≠ tick := h c (by simp)
    have hpre : tick3.isPrefixOf (c :: (cs ++ tick3)) = false := by
      show (tick == c && List.isPrefixOf [tick, tick] (cs ++ tick3)) = false
      simp [Ne.symm hc]
    rw [List.cons_append]
    simp only [takeUntilDelim, hpre, Bool.false_eq_true, if_false,
      ih (fun x hx => h x (by simp [hx]))]

theorem searchGroup_none {d : Char} (ds : List Char) (l : List Char)
    (h : ∀ c ∈ l, c ≠ d) : searchGroup (d :: ds) l = none := by
  induction l with
  | nil => rfl
  | cons c cs ih =>
    have hc : c ≠ d := h c (by simp)
    have hpre : (d :: ds).isPrefixOf (c :: cs) = false := by
      show (d == c && ds.isPrefixOf cs) = false
      simp [Ne.symm hc]
    simp only [searchGroup, hpre, Bool.false_eq_true, if_false]
    exact ih (fun x hx => h x (by simp [hx]))

theorem searchGroup_cons_found {delim g : List Char} {c : Char}
    {cs : List Char}
    (hpre : delim.isPrefixOf (c :: cs) = true)
    (htake : takeUntilDelim delim
        ((((c :: cs).drop delim.length).dropWhile Char.isAlpha).dropWhile
          pyIsSpace) = some g) :
    searchGroup delim (c :: cs) = some g := by
  simp only [searchGroup, hpre, if_true, htake]

theorem searchGroup_fence (doc : List Char) (hno : ∀ c ∈ doc, c ≠ tick) :
    searchGroup tick3
        (tick3 ++ ('h' :: 't' :: 'm' :: 'l' :: '\n' :: doc) ++ tick3)
      = some (doc.dropWhile pyIsSpace) := by
  have hdw : ∀ c ∈ doc.dropWhile pyIsSpace, c ≠ tick :=
    fun c hc => hno c ((List.dropWhile_sublist pyIsSpace).subset hc)
  have htake : takeUntilDelim tick3
      ((('h' :: 't' :: 'm' :: 'l' :: '\n' :: (doc ++ tick3)).dropWhile
        Char.isAlpha).dropWhile pyIsSpace) = some (doc.dropWhile pyIsSpace) := by
    rw [dropWhile_cons_true _ (by decide), dropWhile_cons_true _ (by decide),
      dropWhile_cons_true _ (by decide), dropWhile_cons_true _ (by decide),
      dropWhile_cons_false _ (by decide), dropWhile_cons_true _ (by decide),
      dropWhile_space_append_tick3]
    exact takeUntil_append_tick3 _ hdw
  show searchGroup tick3 (tick :: tick :: tick ::
      ('h' :: 't' :: 'm' :: 'l' :: '\n' :: (doc ++ tick3)))
    = some (doc.dropWhile pyIsSpace)
  exact searchGroup_cons_found rfl htake

end FlaskReport

namespace FlaskReport

theorem pyStrip_dropWhile (l : List Char) :
    pyStrip (l.dropWhile pyIsSpace) = pyStrip l := by
  unfold pyStrip
  rw [List.dropWhile_idempotent]

/-- Claim C4 (confirmed): the post-processing of the HTML-assembly output —
(1) when the text is a fenced block of the form three backticks, `html`,
newline, document, three backticks, the fence is stripped and the result is
the document trimmed of surrounding whitespace; (2) a text with no fence is
left as is, up to the leading-`html`-token removal and trimming; (3) a
leading bare `html` token is removed and the remainder trimmed.  The
side conditions keep the document free of delimiter characters and of a
leading `html` of its own, matching the claim's quantification over
assembled HTML documents. -/
theorem strip_code_fences_spec :
    (∀ doc : List Char, (∀ c ∈ doc, c ≠ tick) → (∀ c ∈ doc, c ≠ quot1) →
      ((doc.dropWhile pyIsSpace).take 4).map pyToLower ≠ ['h', 't', 'm', 'l'] →
      stripCodeFences
          (tick3 ++ ('h' :: 't' :: 'm' :: 'l' :: '\n' :: doc) ++ tick3)
        = pyStrip doc) ∧
    (∀ t : List Char, (∀ c ∈ t, c ≠ tick) → (∀ c ∈ t, c ≠ quot1) →
      ((t.dropWhile pyIsSpace).take 4).map pyToLower ≠ ['h', 't', 'm', 'l'] →
      stripCodeFences t = pyStrip t) ∧
    (∀ rest : List Char, (∀ c ∈ rest, c ≠ tick) → (∀ c ∈ rest, c ≠ quot1) →
      stripCodeFences ('h' :: 't' :: 'm' :: 'l' :: ' ' :: rest)
        = pyStrip rest) := by
  refine ⟨?_, ?_, ?_⟩
  · intro doc htick hquot hhtml
    have hfence := searchGroup_fence doc htick
    have hq : searchGroup quot3 (doc.dropWhile pyIsSpace) = none := by
      have hsub : ∀ c ∈ doc.dropWhile pyIsSpace, c ≠ quot1 :=
        fun c hc => hquot c ((List.dropWhile_sublist pyIsSpace).subset hc)
      exact searchGroup_none [quot1, quot1] (doc.dropWhile pyIsSpace) hsub
    have hrm : removeLeadingHtml (doc.dropWhile pyIsSpace)
        = doc.dropWhile pyIsSpace := by
      unfold removeLeadingHtml
      rw [List.dropWhile_idempotent, if_neg hhtml]
    have hemp : (tick3 ++ ('h' :: 't' :: 'm' :: 'l' :: '\n' :: doc)
        ++ tick3).isEmpty = false := rfl
    simp only [stripCodeFences, hemp, Bool.false_eq_true, if_false, hfence,
      hq, hrm, pyStrip_dropWhile]
  · intro t htick hquot hhtml
    by_cases hnil : t = []
    · subst hnil
      rfl
    · have h1 : searchGroup tick3 t = none :=
        searchGroup_none [tick, tick] t htick
      have h2 : searchGroup quot3 t = none :=
        searchGroup_none [quot1, quot1] t hquot
      have hrm : removeLeadingHtml t = t := by
        unfold removeLeadingHtml
        rw [if_neg hhtml]
      have hemp : t.isEmpty = false := by
        cases t with
        | nil => exact absurd rfl hnil
        | cons a l => rfl
      simp only [stripCodeFences, hemp, Bool.false_eq_true, if_false, h1, h2,
        hrm]
  · intro rest htick hquot
    have hallt : ∀ c ∈ ('h' :: 't' :: 'm' :: 'l' :: ' ' :: rest), c ≠ tick := by
      intro c hc
      simp only [List.mem_cons] at hc
      rcases hc with rfl | rfl | rfl | rfl | rfl | hc
      · decide
      · decide
      · decide
      · decide
      · decide
      · exact htick c hc
    have hallq : ∀ c ∈ ('h' :: 't' :: 'm' :: 'l' :: ' ' :: rest),
        c ≠ quot1 := by
      intro c hc
      simp only [List.mem_cons] at hc
      rcases hc with rfl | rfl | rfl | rfl | rfl | hc
      · decide
      · decide
      · decide
      · decide
      · decide
      · exact hquot c hc
    have h1 : searchGroup tick3 ('h' :: 't' :: 'm' :: 'l' :: ' ' :: rest)
        = none := searchGroup_none [tick, tick] _ hallt
    have h2 : searchGroup quot3 ('h' :: 't' :: 'm' :: 'l' :: ' ' :: rest)
        = none := searchGroup_none [quot1, quot1] _ hallq
    have hrm : removeLeadingHtml ('h' :: 't' :: 'm' :: 'l' :: ' ' :: rest)
        = rest.dropWhile pyIsSpace := by
      unfold removeLeadingHtml
      rw [dropWhile_cons_false _ (by decide)]
      rw [if_pos (by rfl)]
      rw [show ('h' :: 't' :: 'm' :: 'l' :: ' ' :: rest).drop 4
          = ' ' :: rest from rfl]
      rw [dropWhile_cons_true _ (by decide)]
    simp only [stripCodeFences, List.isEmpty_cons, Bool.false_eq_true,
      if_false, h1, h2, hrm, pyStrip_dropWhile]

/-- Witness for C4 at the concrete document `<p>Hi</p>`: the claim's
`three-backticks html newline document three-backticks` input strips to the
document itself. -/
theorem strip_code_fences_spec_witness :
    (∀ c ∈ ("<p>Hi</p>".data), c ≠ tick) ∧
    (∀ c ∈ ("<p>Hi</p>".data), c ≠ quot1) ∧
    ((("<p>Hi</p>".data).dropWhile pyIsSpace).take 4).map pyToLower
        ≠ ['h', 't', 'm', 'l'] ∧
    stripCodeFences
        (tick3 ++ ('h' :: 't' :: 'm' :: 'l' :: '\n' :: "<p>Hi</p>".data)
          ++ tick3)
      = pyStrip ("<p>Hi</p>".data) :=
  ⟨by decide, by decide, by decide,
    strip_code_fences_spec.1 "<p>Hi</p>".data (by decide) (by decide)
      (by decide)⟩

end FlaskReport

namespace FlaskReport

/-! ### Slugify lemmas (claim C10) -/

theorem splitOnChar_ne_nil (sep : Char) (l : List Char) :
    splitOnChar sep l ≠ [] := by
  induction l with
  | nil => simp [splitOnChar]
  | cons c cs ih =>
    cases hsp : splitOnChar sep cs with
    | nil => exact absurd hsp ih
    | cons p ps =>
      simp only [splitOnChar, hsp]
      split <;> simp

theorem splitOnChar_mem (sep : Char) (l : List Char) :
    ∀ p ∈ splitOnChar sep l, ∀ c ∈ p, c ≠ sep ∧ c ∈ l := by
  induction l with
  | nil =>
    intro p hp c hc
    simp [splitOnChar] at hp
    subst hp
    simp at hc
  | cons a cs ih =>
    intro p hp c hc
    cases hsp : splitOnChar sep cs with
    | nil => exact absurd hsp (splitOnChar_ne_nil sep cs)
    | cons q qs =>
      simp only [splitOnChar, hsp] at hp
      by_cases ha : a = sep
      · rw [if_pos ha] at hp
        rcases List.mem_cons.mp hp with rfl | hp2
        · simp at hc
        · have h2 := ih p (by rw [hsp]; exact hp2) c hc
          exact ⟨h2.1, by simp [h2.2]⟩
      · rw [if_neg ha] at hp
        rcases List.mem_cons.mp hp with rfl | hp2
        · rcases List.mem_cons.mp hc with rfl | hc2
          · exact ⟨ha, by simp⟩
          · have h2 := ih q (by rw [hsp]; simp) c hc2
            exact ⟨h2.1, by simp [h2.2]⟩
        · have h2 := ih p (by rw [hsp]; simp [hp2]) c hc
          exact ⟨h2.1, by simp [h2.2]⟩

theorem pyStrip_subset (v : List Char) : ∀ c ∈ pyStrip v, c ∈ v := by
  intro c hc
  unfold pyStrip at hc
  rw [List.mem_reverse] at hc
  have hc2 := (List.dropWhile_sublist pyIsSpace).subset hc
  rw [List.mem_reverse] at hc2
  exact (List.dropWhile_sublist pyIsSpace).subset hc2

theorem slugifySafe_chars (v : List Char) :
    ∀ x ∈ slugifySafe v, x = '_' ∨ pyIsAlnum x = true := by
  intro x hx
  obtain ⟨c, hc, hxeq⟩ := List.mem_map.mp hx
  subst hxeq
  by_cases hal : pyIsAlnum c = true
  · right
    rwa [if_pos hal]
  · left
    rw [if_neg hal]

theorem slugifyParts_good (v : List Char) :
    ∀ p ∈ slugifyParts v, p ≠ [] ∧ ∀ c ∈ p, pyIsAlnum c = true := by
  intro p hp
  unfold slugifyParts at hp
  have hmem := (List.mem_filter.mp hp).1
  have hcond := (List.mem_filter.mp hp).2
  constructor
  · intro hcon
    subst hcon
    simp at hcond
  · intro c hc
    have h2 := splitOnChar_mem '_' (slugifySafe v) p hmem c hc
    rcases slugifySafe_chars v c h2.2 with h3 | h3
    · exact absurd h3 h2.1
    · exact h3

theorem joinUnd_ne_nil (q : List Char) (ps : List (List Char)) (h : q ≠ []) :
    joinUnd (q :: ps) ≠ [] := by
  cases ps with
  | nil => simpa [joinUnd]
  | cons r rs =>
    simp only [joinUnd]
    intro hcon
    have := congrArg List.length hcon
    simp at this

theorem joinUnd_chars :
    ∀ (ps : List (List Char)) (c : Char), c ∈ joinUnd ps →
      c = '_' ∨ ∃ p, p ∈ ps ∧ c ∈ p := by
  intro ps
  induction ps with
  | nil =>
    intro c hc
    simp [joinUnd] at hc
  | cons q rs ih =>
    intro c hc
    cases rs with
    | nil =>
      right
      exact ⟨q, by simp, by simpa [joinUnd] using hc⟩
    | cons r rs2 =>
      simp only [joinUnd] at hc
      rcases List.mem_append.mp hc with h | h
      · right
        exact ⟨q, by simp, h⟩
      · rcases List.mem_cons.mp h with rfl | h2
        · left
          rfl
        · rcases ih c h2 with h3 | ⟨p, hp, hcp⟩
          · left
            exact h3
          · right
            exact ⟨p, by simp [hp], hcp⟩

theorem joinUnd_head (p : List Char) (rest : List (List Char)) (h : p ≠ []) :
    (joinUnd (p :: rest)).head? = p.head? := by
  cases rest with
  | nil => rfl
  | cons r rs =>
    cases p with
    | nil => exact absurd rfl h
    | cons a t => rfl

theorem joinUnd_getLast :
    ∀ ps : List (List Char), (∀ p ∈ ps, p ≠ []) → ps ≠ [] →
      ∃ q, q ∈ ps ∧ (joinUnd ps).getLast? = q.getLast? := by
  intro ps
  induction ps with
  | nil =>
    intro _ h
    exact absurd rfl h
  | cons q rs ih =>
    intro hall _
    cases rs with
    | nil => exact ⟨q, by simp, rfl⟩
    | cons r rs2 =>
      obtain ⟨q2, hq2mem, hq2⟩ :=
        ih (fun p hp => hall p (by simp [hp])) (by simp)
      have hJ : joinUnd (r :: rs2) ≠ [] :=
        joinUnd_ne_nil r rs2 (hall r (by simp))
      refine ⟨q2, by simp [hq2mem], ?_⟩
      show (q ++ '_' :: joinUnd (r :: rs2)).getLast? = q2.getLast?
      rw [List.getLast?_append_of_ne_nil _ (by simp)]
      cases hJcase : joinUnd (r :: rs2) with
      | nil => exact absurd hJcase hJ
      | cons x xs =>
        rw [show ('_' :: x :: xs).getLast? = (x :: xs).getLast? from rfl]
        rw [← hJcase, hq2]

theorem noDoubleUnd_of_no_und :
    ∀ l : List Char, (∀ c ∈ l, c ≠ '_') → noDoubleUnd l = true := by
  intro l
  induction l with
  | nil =>
    intro _
    rfl
  | cons a t ih =>
    intro h
    cases t with
    | nil => rfl
    | cons b t2 =>
      have ha : a ≠ '_' := h a (by simp)
      simp [noDoubleUnd, ha, ih (fun c hc => h c (by simp [hc]))]

theorem noDoubleUnd_glue :
    ∀ (p J : List Char), (∀ c ∈ p, c ≠ '_') →
      (∀ x, J.head? = some x → x ≠ '_') → noDoubleUnd J = true →
      noDoubleUnd (p ++ '_' :: J) = true := by
  intro p
  induction p with
  | nil =>
    intro J h0 hJhead hJ
    simp only [List.nil_append]
    cases J with
    | nil => rfl
    | cons x xs =>
      have hx : x ≠ '_' := hJhead x rfl
      simp [noDoubleUnd, hx, hJ]
  | cons a p2 ih =>
    intro J h0 hJhead hJ
    have ha : a ≠ '_' := h0 a (by simp)
    have h2 := ih J (fun c hc => h0 c (by simp [hc])) hJhead hJ
    cases p2 with
    | nil =>
      simp only [List.nil_append] at h2
      simp [noDoubleUnd, ha, h2]
    | cons b p3 =>
      simp only [List.cons_append] at h2 ⊢
      simp [noDoubleUnd, ha, h2]

theorem noDoubleUnd_join :
    ∀ ps : List (List Char),
      (∀ p ∈ ps, p ≠ [] ∧ ∀ c ∈ p, pyIsAlnum c = true) →
      noDoubleUnd (joinUnd ps) = true := by
  intro ps
  induction ps with
  | nil =>
    intro _
    rfl
  | cons q rs ih =>
    intro hall
    have hq := hall q (by simp)
    have hqno : ∀ c ∈ q, c ≠ '_' := by
      intro c hc heq
      have h2 := hq.2 c hc
      rw [heq] at h2
      exact absurd h2 (by decide)
    cases rs with
    | nil => simpa [joinUnd] using noDoubleUnd_of_no_und q hqno
    | cons r rs2 =>
      have hrest := ih (fun p hp => hall p (by simp [hp]))
      have hrne : r ≠ [] := (hall r (by simp)).1
      have hhead : ∀ x, (joinUnd (r :: rs2)).head? = some x → x ≠ '_' := by
        intro x hx heq
        rw [joinUnd_head r rs2 hrne] at hx
        have hxmem : x ∈ r := by
          cases r with
          | nil => exact absurd rfl hrne
          | cons a t =>
            simp only [List.head?_cons, Option.some_inj] at hx
            rw [← hx]
            simp
        have h2 := (hall r (by simp)).2 x hxmem
        rw [heq] at h2
        exact absurd h2 (by decide)
      simpa [joinUnd] using
        noDoubleUnd_glue q (joinUnd (r :: rs2)) hqno hhead hrest

theorem noDoubleUnd_map (l : List Char) (h : noDoubleUnd l = true) :
    noDoubleUnd (l.map pyToLower) = true := by
  induction l with
  | nil => rfl
  | cons a t ih =>
    cases t with
    | nil => rfl
    | cons b t2 =>
      simp only [noDoubleUnd] at h
      rw [Bool.and_eq_true] at h
      obtain ⟨h1, h2⟩ := h
      by_cases hA : a = '_'
      · by_cases hB : b = '_'
        · subst hA
          subst hB
          simp at h1
        · have hBl : pyToLower b ≠ '_' :=
            fun hcon => hB (pyToLower_underscore_iff.mp hcon)
          have hihm := ih h2
          simp only [List.map_cons] at hihm
          simp [noDoubleUnd, hBl, hihm]
      · have hAl : pyToLower a ≠ '_' :=
          fun hcon => hA (pyToLower_underscore_iff.mp hcon)
        have hihm := ih h2
        simp only [List.map_cons] at hihm
        simp [noDoubleUnd, hAl, hihm]

theorem digChar_ne_slash (d : ℕ) : digChar d ≠ '/' := by
  unfold digChar
  repeat' split
  all_goals decide

theorem padNum_no_slash (w n : ℕ) : '/' ∉ padNum w n := by
  intro hm
  unfold padNum at hm
  rcases List.mem_append.mp hm with h1 | h1
  · exact absurd (List.mem_replicate.mp h1).2 (by decide)
  · obtain ⟨d2, _, hde⟩ := List.mem_map.mp h1
    exact digChar_ne_slash d2 hde

theorem formatTimestamp_no_slash (y mo d h mi s : ℕ) :
    '/' ∉ formatTimestamp y mo d h mi s := by
  intro hmem
  unfold formatTimestamp at hmem
  simp only [List.mem_append, List.mem_cons] at hmem
  rcases hmem with ((h1 | h1) | h1) | h1 | h1
  · exact padNum_no_slash 4 y h1
  · exact padNum_no_slash 2 mo h1
  · exact padNum_no_slash 2 d h1
  · exact absurd h1 (by decide)
  · rcases h1 with (h2 | h2) | h2
    · exact padNum_no_slash 2 h h2
    · exact padNum_no_slash 2 mi h2
    · exact padNum_no_slash 2 s h2

theorem slugify_fallback {v : List Char}
    (h : ∀ c ∈ v, pyIsAlnum c = false) : slugifyJoined v = [] := by
  have hsafe : ∀ x ∈ slugifySafe v, x = '_' := by
    intro x hx
    obtain ⟨c, hc, hxeq⟩ := List.mem_map.mp hx
    subst hxeq
    simp [h c (pyStrip_subset v c hc)]
  have hparts : slugifyParts v = [] := by
    unfold slugifyParts
    rw [List.filter_eq_nil_iff]
    intro p hp
    have hpnil : p = [] := by
      cases p with
      | nil => rfl
      | cons a t =>
        have hmem := splitOnChar_mem '_' (slugifySafe v) (a :: t) hp a (by simp)
        exact absurd (hsafe a hmem.2) hmem.1
    simp [hpnil]
  simp [slugifyJoined, hparts, joinUnd]

theorem slugify_chars (v : List Char) :
    ∀ c ∈ slugify v, (pyIsAlnum c = true ∧ pyIsUpper c = false) ∨ c = '_' := by
  intro c hc
  unfold slugify at hc
  split at hc
  · exact (by decide :
      ∀ x ∈ "report".data,
        (pyIsAlnum x = true ∧ pyIsUpper x = false) ∨ x = '_') c hc
  · obtain ⟨c0, hc0, rfl⟩ := List.mem_map.mp hc
    rcases joinUnd_chars (slugifyParts v) c0 hc0 with rfl | ⟨p, hp, hcp⟩
    · right
      decide
    · left
      exact pyToLower_alnum ((slugifyParts_good v p hp).2 c0 hcp)

end FlaskReport

namespace FlaskReport

/-- Claim C10 (confirmed): for every input string, `slugify` returns a
non-empty string whose characters are lowercase alphanumerics or single
underscores — never a leading, trailing or doubled underscore, and no path
separators or dots — falling back to `report` when the input has no
alphanumeric character; consequently the job base filename
(slug + underscore + timestamp) contains no path separator, i.e. it names a
single path component under the output directory. -/
theorem slugify_path_safe :
    ∀ v : List Char,
      slugify v ≠ [] ∧
      (∀ c ∈ slugify v, (pyIsAlnum c = true ∧ pyIsUpper c = false) ∨
        c = '_') ∧
      (slugify v).head? ≠ some '_' ∧
      (slugify v).getLast? ≠ some '_' ∧
      noDoubleUnd (slugify v) = true ∧
      '/' ∉ slugify v ∧ '\\' ∉ slugify v ∧ '.' ∉ slugify v ∧
      ((∀ c ∈ v, pyIsAlnum c = false) → slugify v = "report".data) ∧
      (∀ y mo d h mi s : ℕ, '/' ∉ jobBaseFilename v y mo d h mi s) := by
  intro v
  have hchars := slugify_chars v
  have hslash : '/' ∉ slugify v := by
    intro hmem
    rcases hchars '/' hmem with ⟨h1, _⟩ | h1
    · exact absurd h1 (by decide)
    · exact absurd h1 (by decide)
  have hbs : '\\' ∉ slugify v := by
    intro hmem
    rcases hchars '\\' hmem with ⟨h1, _⟩ | h1
    · exact absurd h1 (by decide)
    · exact absurd h1 (by decide)
  have hdot : '.' ∉ slugify v := by
    intro hmem
    rcases hchars '.' hmem with ⟨h1, _⟩ | h1
    · exact absurd h1 (by decide)
    · exact absurd h1 (by decide)
  have hts : ∀ y mo d h mi s : ℕ, '/' ∉ jobBaseFilename v y mo d h mi s := by
    intro y mo d h mi s hmem
    unfold jobBaseFilename at hmem
    rcases List.mem_append.mp hmem with h1 | h1
    · exact hslash h1
    · rcases List.mem_cons.mp h1 with h2 | h2
      · exact absurd h2 (by decide)
      · exact formatTimestamp_no_slash y mo d h mi s h2
  by_cases hemp : (slugifyJoined v).isEmpty = true
  · have hs : slugify v = "report".data := by simp [slugify, hemp]
    exact ⟨by rw [hs]; decide, hchars, by rw [hs]; decide, by rw [hs]; decide,
      by rw [hs]; decide, hslash, hbs, hdot, fun _ => hs, hts⟩
  · have hs : slugify v = slugifyJoined v := by simp [slugify, hemp]
    have hjne : joinUnd (slugifyParts v) ≠ [] := by
      intro hcon
      exact hemp (by simp [slugifyJoined, hcon])
    have hpne : slugifyParts v ≠ [] := by
      intro hcon
      exact hjne (by rw [hcon]; rfl)
    refine ⟨?_, hchars, ?_, ?_, ?_, hslash, hbs, hdot, ?_, hts⟩
    · rw [hs]
      intro hcon
      exact hemp (by rw [hcon]; rfl)
    · cases hps : slugifyParts v with
      | nil => exact absurd hps hpne
      | cons p ps =>
        have hpmem : p ∈ slugifyParts v := by
          rw [hps]
          simp
        have hpgood := slugifyParts_good v p hpmem
        rw [hs]
        unfold slugifyJoined
        rw [List.head?_map, hps, joinUnd_head p ps hpgood.1]
        cases p with
        | nil => exact absurd rfl hpgood.1
        | cons a t =>
          intro hcon
          have hlow : pyToLower a = '_' := by simpa using hcon
          have haa := pyToLower_underscore_iff.mp hlow
          have ha := hpgood.2 a (by simp)
          rw [haa] at ha
          exact absurd ha (by decide)
    · rw [hs]
      unfold slugifyJoined
      rw [List.getLast?_map]
      obtain ⟨q, hqmem, hqlast⟩ := joinUnd_getLast (slugifyParts v)
        (fun p2 hp2 => (slugifyParts_good v p2 hp2).1) hpne
      rw [hqlast]
      cases hq : q.getLast? with
      | none => simp
      | some b =>
        have hbmem : b ∈ q := List.mem_of_mem_getLast? hq
        have hb := (slugifyParts_good v q hqmem).2 b hbmem
        intro hcon
        have hlow : pyToLower b = '_' := by simpa using hcon
        have hbb := pyToLower_underscore_iff.mp hlow
        rw [hbb] at hb
        exact absurd hb (by decide)
    · rw [hs]
      exact noDoubleUnd_map _
        (noDoubleUnd_join (slugifyParts v) (slugifyParts_good v))
    · intro hf
      exact absurd
        (show (slugifyJoined v).isEmpty = true by
          rw [slugify_fallback hf]
          rfl)
        hemp

/-- Witness for C10: an input with no alphanumeric characters falls back to
`report`, via the theorem itself. -/
theorem slugify_path_safe_witness :
    (∀ c ∈ ("??".data), pyIsAlnum c = false) ∧
    slugify ("??".data) = "report".data :=
  ⟨by decide,
    ((slugify_path_safe "??".data).2.2.2.2.2.2.2.2).1 (by decide)⟩

end FlaskReport
